import Mathlib

/-!
Verification of the crash-dump artifact/symbol cache in `tasks/debugging/dump.py`.

The Python module is embedded shallowly:

* `pathlib` paths are `PyPath` (absolute flag + components); `Path(a, b)` join
  semantics, including absolute right operands replacing the left, are modelled
  by `PyPath.join`, and `str(...)`/`Path(...)` round-tripping by `pyStr`/`pyPath`.
* The filesystem is `St`: an association list of files (path to contents) plus
  the set of explicitly created directories; `St` also carries the working
  directory used to resolve relative paths and a counter of CI-provider calls.
* Byte strings are modelled as `String` values wrapped in `FileData.raw`
  (UTF-8 encoding/decoding is injective so it is modelled as the identity); a
  file that is a zip archive is `FileData.zip` with its ordered entry list.
* Fallible Python code (`IsADirectoryError`, `FileExistsError`, unbound-local
  `NameError`, CI lookups) returns `Except Err`.  State mutated before an
  exception is not tracked on the error branch; no claim depends on it.
* The gitlab client is `CIProject`: finite tables of jobs and of per-pipeline
  listings of completed jobs; each provider query bumps `St.ciCalls`.
-/

/-- A `pathlib` path: absolute flag plus components. -/
structure PyPath where
  isAbs : Bool
  comps : List String
deriving DecidableEq

/-- Split a character list at slashes, accumulating the current component in
reverse: the segments of a POSIX path string. -/
def splitSlash (cs : List Char) (cur : List Char) : List String :=
  match cs with
  | [] => [String.mk cur.reverse]
  | c :: rest =>
    if c = '/' then String.mk cur.reverse :: splitSlash rest []
    else splitSlash rest (c :: cur)

/-- `str.endswith`. -/
def pyEndsWith (s suf : String) : Bool := suf.data.isSuffixOf s.data

/-- `str.strip()`: remove surrounding whitespace. -/
def pyStrip (s : String) : String :=
  String.mk (((s.data.dropWhile Char.isWhitespace).reverse.dropWhile Char.isWhitespace).reverse)

/-- Parse a path string the way `pathlib.Path(s)` splits it on slashes. -/
def pyPath (s : String) : PyPath :=
  { isAbs := match s.data with | c :: _ => c == '/' | [] => false,
    comps := (splitSlash s.data []).filter (fun c => c != "") }

/-- `Path.__truediv__` / multi-argument `Path(a, b)`: an absolute right side
replaces the left side entirely. -/
def PyPath.join (p q : PyPath) : PyPath :=
  if q.isAbs then q else { isAbs := p.isAbs, comps := p.comps ++ q.comps }

/-- `str(path)`. -/
def pyStr (p : PyPath) : String :=
  (if p.isAbs then "/" else "") ++ String.intercalate "/" p.comps

/-- Resolve a possibly-relative path against the working directory, yielding
the concrete location on disk. -/
def resolvePy (cwd : List String) (p : PyPath) : List String :=
  if p.isAbs then p.comps else cwd ++ p.comps

/-- One member of a zip archive, in archive order. -/
structure ZipEntry where
  filename : String
  data : String
deriving DecidableEq

/-- Contents of a file: opaque bytes, or a zip archive with its entries. -/
inductive FileData where
  | raw (s : String)
  | zip (entries : List ZipEntry)
deriving DecidableEq

/-- Filesystem-and-session state: working directory, files (path to contents),
explicitly created directories, and the count of CI-provider calls made. -/
structure St where
  cwd : List String
  files : List (List String × FileData)
  dirs : List (List String)
  ciCalls : Nat
deriving DecidableEq

/-- Errors raised by the embedded code. -/
inductive Err where
  | fileExists
  | isADirectory
  | notFound
  | nameError
  | badZip
  | decodeError
deriving DecidableEq

/-- The entry stored at exactly `p` in a file list, if any. -/
def findFile (p : List String) : List (List String × FileData) → Option FileData
  | [] => none
  | q :: rest => if q.1 == p then some q.2 else findFile p rest

/-- The file stored at exactly `p`, if any. -/
def lookupFile (st : St) (p : List String) : Option FileData := findFile p st.files

/-- Insert or overwrite the file at `p`. -/
def upsertFile (p : List String) (d : FileData) :
    List (List String × FileData) → List (List String × FileData)
  | [] => [(p, d)]
  | q :: rest => if q.1 == p then (p, d) :: rest else q :: upsertFile p d rest

/-- `Path.exists()`: a file or directory is at `p` (a directory exists when it
was created explicitly or lies above an existing entry). -/
def pathExists (st : St) (p : List String) : Bool :=
  st.files.any (fun q => p.isPrefixOf q.1) || st.dirs.any (fun d => p.isPrefixOf d)

/-- Is there a directory at `p`? -/
def dirAt (st : St) (p : List String) : Bool :=
  st.files.any (fun q => p.isPrefixOf q.1 && p != q.1) || st.dirs.any (fun d => p.isPrefixOf d)

def parentPath (p : List String) : List String := p.dropLast

/-- Some initial segment of `p` (possibly `p` itself) is an existing file, so
`p` cannot be created as a directory. -/
def fileConflict (st : St) (p : List String) : Bool :=
  st.files.any (fun q => q.1.isPrefixOf p)

def addDir (st : St) (p : List String) : St := { st with dirs := p :: st.dirs }

/-- `p.mkdir(parents=True, exist_ok=True)`. -/
def mkdirParents (st : St) (p : List String) : Except Err St :=
  if fileConflict st p then .error .fileExists else .ok (addDir st p)

/-- `Path.write_bytes` once the parent directory exists: fails if a directory
occupies `p`. -/
def writeFileAt (st : St) (p : List String) (d : FileData) : Except Err St :=
  if dirAt st p then .error .isADirectory
  else .ok { st with files := upsertFile p d st.files }

/-- `PathStore` (dump.py lines 15-39): a root directory. -/
structure PathStore where
  path : PyPath
deriving DecidableEq

/-- `PathStore.add`: make the parent directories, then write the blob,
overwriting whatever blob was at the key. -/
def PathStore.add (ps : PathStore) (key : String) (data : FileData) (st : St) : Except Err St :=
  let p := resolvePy st.cwd (ps.path.join (pyPath key))
  match mkdirParents st (parentPath p) with
  | .error e => .error e
  | .ok st1 => writeFileAt st1 p data

/-- `PathStore.get`: `if file_path.exists(): return file_path.read_bytes()`,
else `None`.  Reading a path that exists but is a directory raises. -/
def PathStore.get (ps : PathStore) (key : String) (st : St) : Except Err (Option FileData) :=
  let p := resolvePy st.cwd (ps.path.join (pyPath key))
  if pathExists st p then
    match lookupFile st p with
    | some d => .ok (some d)
    | none => .error .isADirectory
  else .ok none

/-- One file copied by `shutil.copytree`: create parent directories, write. -/
def copyOne (dst : List String) (st : St) (entry : List String × FileData) : Except Err St :=
  let p := dst ++ entry.1
  match mkdirParents st (parentPath p) with
  | .error e => .error e
  | .ok st1 => writeFileAt st1 p entry.2

/-- `shutil.copytree(src, dst, dirs_exist_ok=True)`: source directory contents
are given as relative paths with their data. -/
def copyTree (src : List (List String × FileData)) (dst : List String) (st : St) : Except Err St :=
  src.foldlM (fun s e => copyOne dst s e) st

/-- `PathStore.add_directory`: `dst.mkdir(parents=True, exist_ok=True)` then
`shutil.copytree(src, dst, dirs_exist_ok=True)`. -/
def PathStore.addDirectory (ps : PathStore) (key : String)
    (src : List (List String × FileData)) (st : St) : Except Err St :=
  let dst := resolvePy st.cwd (ps.path.join (pyPath key))
  match mkdirParents st dst with
  | .error e => .error e
  | .ok st1 => copyTree src dst st1

/-- `PathStore.get_directory`: the joined path object if anything exists there. -/
def PathStore.getDirectory (ps : PathStore) (key : String) (st : St) : Option PyPath :=
  let q := ps.path.join (pyPath key)
  if pathExists st (resolvePy st.cwd q) then some q else none

/-- `SymbolStore` (dump.py lines 42-50), a `PathStore` keyed by version. -/
structure SymbolStore where
  path : PyPath
deriving DecidableEq

def SymbolStore.ps (ss : SymbolStore) : PathStore := ⟨ss.path⟩

/-- `SymbolStore.add`: `dst = Path(self.path, version, 'symbols')`;
`self.add_directory(str(dst), path)`; `return dst`.  Note the key handed to
`add_directory` is the full `dst` rendered as a string, not a root-relative
subkey. -/
def SymbolStore.add (ss : SymbolStore) (version : String)
    (src : List (List String × FileData)) (st : St) : Except Err (PyPath × St) :=
  let dst := (ss.path.join (pyPath version)).join (pyPath "symbols")
  match ss.ps.addDirectory (pyStr dst) src st with
  | .error e => .error e
  | .ok st1 => .ok (dst, st1)

/-- `SymbolStore.get`: `p = Path(self.path, version, 'symbols')`;
`return self.get_directory(str(p))`. -/
def SymbolStore.get (ss : SymbolStore) (version : String) (st : St) : Option PyPath :=
  let p := (ss.path.join (pyPath version)).join (pyPath "symbols")
  ss.ps.getDirectory (pyStr p) st

/-- The three lazily-loaded text properties of an `Artifacts` handle. -/
inductive TextAttr where
  | version
  | pipeline
  | project
deriving DecidableEq

def TextAttr.txtName : TextAttr → String
  | .version => "version.txt"
  | .pipeline => "pipeline.txt"
  | .project => "project.txt"

/-- `Artifacts` (dump.py lines 53-110): a per-(project, job) handle.  The
fields mirror `_project`, `_job`, `_version`, `_pipeline`; note `_project` is
initialised to the project id by `__init__`, so the `project` property is
always already cached. -/
structure Artifacts where
  store : PathStore
  projectF : String
  jobF : String
  versionF : Option String
  pipelineF : Option String
deriving DecidableEq

/-- `Artifacts.makekey`. -/
def Artifacts.makekey (project job : String) : String := project ++ "/" ++ job

/-- `Artifacts.key`. -/
def Artifacts.key (a : Artifacts) : String := Artifacts.makekey a.projectF a.jobF

/-- `getattr(self, "_" + attr)`. -/
def Artifacts.attrGet (a : Artifacts) : TextAttr → Option String
  | .version => a.versionF
  | .pipeline => a.pipelineF
  | .project => some a.projectF

/-- `setattr(self, "_" + attr, value)`. -/
def Artifacts.attrSet (a : Artifacts) : TextAttr → String → Artifacts
  | .version, v => { a with versionF := some v }
  | .pipeline, v => { a with pipelineF := some v }
  | .project, v => { a with projectF := v }

/-- `Artifacts._get_text_property`: return the cached value if set; otherwise
read `<key>/<attr>.txt`, returning `None` for a missing entry or empty bytes,
else caching and returning the UTF-8 decoded, whitespace-stripped text. -/
def Artifacts.getTextProperty (a : Artifacts) (attr : TextAttr) (st : St) :
    Except Err (Option String × Artifacts) :=
  match a.attrGet attr with
  | some v => .ok (some v, a)
  | none =>
    match a.store.get (a.key ++ "/" ++ attr.txtName) st with
    | .error e => .error e
    | .ok none => .ok (none, a)
    | .ok (some (.zip _)) => .error .decodeError
    | .ok (some (.raw s)) =>
      if s = "" then .ok (none, a)
      else .ok (some (pyStrip s), a.attrSet attr (pyStrip s))

/-- The value `_get_text_property` would decode from a stored text entry:
`None` for empty bytes, otherwise the decoded text stripped of surrounding
whitespace; zip bytes are not valid UTF-8 text. -/
def storedTextValue : FileData → Option String
  | .raw s => if s = "" then none else some (pyStrip s)
  | .zip _ => none

/-- `Artifacts._set_text_property`: write `<key>/<attr>.txt` through the path
store, then update the in-memory cache. -/
def Artifacts.setTextProperty (a : Artifacts) (attr : TextAttr) (v : String) (st : St) :
    Except Err (Artifacts × St) :=
  match a.store.add (a.key ++ "/" ++ attr.txtName) (.raw v) st with
  | .error e => .error e
  | .ok st1 => .ok (a.attrSet attr v, st1)

/-- `Artifacts.get`: the raw-artifact subtree path, if present. -/
def Artifacts.getDir (a : Artifacts) (st : St) : Option PyPath :=
  a.store.getDirectory (a.key ++ "/artifacts") st

/-- `Artifacts.add`: copy raw artifacts into `<key>/artifacts`. -/
def Artifacts.addDirTree (a : Artifacts) (src : List (List String × FileData)) (st : St) :
    Except Err St :=
  a.store.addDirectory (a.key ++ "/artifacts") src st

/-- `ArtifactStore` (dump.py lines 113-127). -/
structure ArtifactStore where
  pathStore : PathStore
deriving DecidableEq

/-- `Artifacts.__init__`. -/
def mkArtifacts (ps : PathStore) (project job : String) : Artifacts :=
  { store := ps, projectF := project, jobF := job, versionF := none, pipelineF := none }

/-- `ArtifactStore.add`: construct a handle; only when an artifacts path is
given does anything reach the disk. -/
def ArtifactStore.add (astore : ArtifactStore) (project job : String)
    (src : Option (List (List String × FileData))) (st : St) : Except Err (Artifacts × St) :=
  let a := mkArtifacts astore.pathStore project job
  match src with
  | none => .ok (a, st)
  | some tree =>
    match a.addDirTree tree st with
    | .error e => .error e
    | .ok st1 => .ok (a, st1)

/-- `ArtifactStore.get`: a handle exists iff anything exists at the pair's key
directory on disk. -/
def ArtifactStore.get (astore : ArtifactStore) (project job : String) (st : St) :
    Option Artifacts :=
  match astore.pathStore.getDirectory (Artifacts.makekey project job) st with
  | some _ => some (mkArtifacts astore.pathStore project job)
  | none => none

/-- `PurePath(s).name` for the entry names that pass the extraction filter. -/
def zipBasename (s : String) : String := (splitSlash s.data []).getLastD ""

/-- `str.removesuffix`. -/
def pyRemovesuffix (s suf : String) : String :=
  if pyEndsWith s suf then String.mk (s.data.take (s.data.length - suf.data.length)) else s

/-- Insert or overwrite an extracted output file. -/
def upsertEntry (k v : String) : List (String × String) → List (String × String)
  | [] => [(k, v)]
  | q :: rest => if q.1 == k then (k, v) :: rest else q :: upsertEntry k v rest

/-- Look up an extracted output file by name. -/
def lookupEntry (k : String) : List (String × String) → Option String
  | [] => none
  | q :: rest => if q.1 == k then some q.2 else lookupEntry k rest

/-- `extract_agent_symbols` (dump.py lines 312-317): iterate the archive in
order; keep entries whose stored name ends in `.exe.debug`, rewriting each name
to its basename before extraction, so a later entry overwrites an earlier one
with the same basename.  The result is the output directory's contents. -/
def extractAgentSymbols (entries : List ZipEntry) : List (String × String) :=
  entries.foldl
    (fun out e =>
      if pyEndsWith e.filename ".exe.debug" then upsertEntry (zipBasename e.filename) e.data out
      else out)
    []

/-- A CI job as returned by the provider: id, name, pipeline id, and the
contents of its (extracted) artifact archive. -/
structure CIJob where
  id : String
  name : String
  pipelineId : String
  artifactsTree : List (List String × FileData)
deriving DecidableEq

/-- The gitlab project: a table of jobs and, per pipeline id, the listing of
completed jobs (the `scope='success'` filter is applied by the API). -/
structure CIProject where
  jobs : List CIJob
  pipelines : List (String × List CIJob)
deriving DecidableEq

/-- Python string interpolation of a `str | None` value. -/
def pyShow : Option String → String
  | none => "None"
  | some s => s

/-- `project.jobs.get(job_id)`: one provider call; fails for an unknown id and
for `None` (the HTTP job endpoint takes numeric ids only). -/
def CIProject.jobsGet (proj : CIProject) (jobId : Option String) (st : St) :
    Except Err CIJob × St :=
  let st1 := { st with ciCalls := st.ciCalls + 1 }
  match jobId with
  | none => (.error .notFound, st1)
  | some jid =>
    match proj.jobs.find? (fun j => j.id == jid) with
    | some j => (.ok j, st1)
    | none => (.error .notFound, st1)

/-- `project.pipelines.get(pipeline_id)` plus `pipeline.jobs.list(...,
scope='success')`, collapsed into one provider query returning the listing. -/
def CIProject.pipelinesGet (proj : CIProject) (pid : String) (st : St) :
    Except Err (List CIJob) × St :=
  let st1 := { st with ciCalls := st.ciCalls + 1 }
  match proj.pipelines.find? (fun pr => pr.1 == pid) with
  | some pr => (.ok pr.2, st1)
  | none => (.error .notFound, st1)

def defaultPackageJobName : String := "windows_msi_and_bosh_zip_x64-a7"

/-- `get_package_job_id` (dump.py lines 362-375): fetch the job, fetch its
pipeline's completed jobs, return the id of the first one with the configured
package-job name, or `None` when no listed job matches. -/
def getPackageJobId (proj : CIProject) (jobId : String) (pkgName : Option String) (st : St) :
    Except Err (Option String) × St :=
  let name := pkgName.getD defaultPackageJobName
  match proj.jobsGet (some jobId) st with
  | (.error e, st1) => (.error e, st1)
  | (.ok job, st1) =>
    match proj.pipelinesGet job.pipelineId st1 with
    | (.error e, st2) => (.error e, st2)
    | (.ok listing, st2) =>
      (.ok ((listing.find? (fun j => j.name == name)).map (fun j => j.id)), st2)

/-- `download_job_artifacts` (dump.py lines 329-347): job metadata lookup plus
the artifact-archive download (two provider calls); the archive is extracted
into the output directory, yielding the job's artifact tree. -/
def downloadJobArtifacts (proj : CIProject) (jobId : Option String) (st : St) :
    Except Err (List (List String × FileData)) × St :=
  match proj.jobsGet jobId st with
  | (.error e, st1) => (.error e, st1)
  | (.ok j, st1) => (.ok j.artifactsTree, { st1 with ciCalls := st1.ciCalls + 1 })

/-- `add_gitlab_job_artifacts_to_artifact_store` (dump.py lines 130-137). -/
def addGitlabJobArtifacts (astore : ArtifactStore) (proj : CIProject) (jobId : Option String)
    (st : St) : Except Err Artifacts × St :=
  match downloadJobArtifacts proj jobId st with
  | (.error e, st1) => (.error e, st1)
  | (.ok tree, st1) =>
    match astore.add "datadog-agent" (pyShow jobId) (some tree) st1 with
    | .error e => (.error e, st1)
    | .ok (a, st2) => (.ok a, st2)

/-- `get_or_fetch_artifacts` (dump.py lines 285-290). -/
def getOrFetchArtifacts (astore : ArtifactStore) (proj : CIProject) (jobId : Option String)
    (st : St) : Except Err Artifacts × St :=
  match astore.get "datadog-agent" (pyShow jobId) st with
  | some a => (.ok a, st)
  | none => addGitlabJobArtifacts astore proj jobId st

/-- `find_debug_zip`: recursive glob for `*.debug.zip` under a directory; an
absent directory yields no matches. -/
def findDebugZip (st : St) (dir : Option (List String)) : List (List String) :=
  match dir with
  | none => []
  | some d =>
    st.files.filterMap (fun q =>
      if d.isPrefixOf q.1 && q.1 != d && pyEndsWith (q.1.getLastD "") ".debug.zip" then some q.1
      else none)

/-- `CrashAnalyzerCLI`: the session's symbol store and artifact store. -/
structure CLI where
  symbolStore : SymbolStore
  artifactStore : ArtifactStore
deriving DecidableEq

/-- The slow path of `get_symbols_for_job_id` (dump.py lines 264-275): locate
the package job, fetch-or-reuse its artifacts, take the first `.debug.zip`
found, derive the version by stripping the suffix from its basename, and record
the version on the package job's handle and on the original job's handle
(creating the latter if absent).  Returns the final values of the Python
locals `version` and `debug_zip` (absent when left unbound by an empty glob). -/
def slowPathStep (proj : CIProject) (cli : CLI) (jobId : String) (artifact0 : Option Artifacts)
    (st : St) : Except Err (Option String × Option (List String)) × St :=
  match getPackageJobId proj jobId none st with
  | (.error e, st1) => (.error e, st1)
  | (.ok pkgId, st1) =>
    match getOrFetchArtifacts cli.artifactStore proj pkgId st1 with
    | (.error e, st2) => (.error e, st2)
    | (.ok pkgArtifacts, st2) =>
      match findDebugZip st2 (Option.map (resolvePy st2.cwd) (pkgArtifacts.getDir st2)) with
      | [] => (.ok (none, none), st2)
      | z :: _ =>
        let version := pyRemovesuffix (z.getLastD "") ".debug.zip"
        match pkgArtifacts.setTextProperty .version version st2 with
        | .error e => (.error e, st2)
        | .ok (_, st3) =>
          let a0 :=
            match artifact0 with
            | some a => a
            | none => mkArtifacts cli.artifactStore.pathStore "datadog-agent" jobId
          match a0.setTextProperty .version version st3 with
          | .error e => (.error e, st3)
          | .ok (_, st4) => (.ok (some version, some z), st4)

/-- Lines 276-282 of `get_symbols_for_job_id`: look up the symbol store for the
version, extracting the archive into a fresh temporary directory and adding it
on a miss.  Referencing a Python local left unbound raises `NameError`. -/
def resolveVersionTail (cli : CLI) (version : Option String) (debugZip : Option (List String))
    (st : St) : Except Err PyPath × St :=
  match version with
  | none => (.error .nameError, st)
  | some v =>
    match cli.symbolStore.get v st with
    | some syms => (.ok syms, st)
    | none =>
      match debugZip with
      | none => (.error .nameError, st)
      | some z =>
        match lookupFile st z with
        | some (.zip entries) =>
          let tmp := (extractAgentSymbols entries).map (fun e => ([e.1], FileData.raw e.2))
          match cli.symbolStore.add v tmp st with
          | .error e => (.error e, st)
          | .ok (p, st1) => (.ok p, st1)
        | _ => (.error .badZip, st)

/-- `get_symbols_for_job_id` (dump.py lines 257-282).  The fast path is taken
when the handle exists and its `version` property is truthy (a non-empty
string); otherwise the slow path runs first. -/
def getSymbolsForJobId (proj : CIProject) (cli : CLI) (jobId : String) (st : St) :
    Except Err PyPath × St :=
  match cli.artifactStore.get "datadog-agent" jobId st with
  | some art =>
    match art.getTextProperty .version st with
    | .error e => (.error e, st)
    | .ok (vOpt, art1) =>
      if vOpt.getD "" != "" then resolveVersionTail cli vOpt none st
      else
        match slowPathStep proj cli jobId (some art1) st with
        | (.error e, st1) => (.error e, st1)
        | (.ok (v, z), st1) => resolveVersionTail cli v z st1
  | none =>
    match slowPathStep proj cli jobId none st with
    | (.error e, st1) => (.error e, st1)
    | (.ok (v, z), st1) => resolveVersionTail cli v z st1

/-! Concrete instances used by the evaluations, witnesses and counterexamples. -/

/-- The empty filesystem. -/
def stEmpty : St := { cwd := [], files := [], dirs := [], ciCalls := 0 }

/-- A session rooted at the absolute directory `/env`, as `CrashAnalyzerCLI`
builds it (`Path(env, 'symbols')`, `Path(env, 'artifacts')`). -/
def cliEnv : CLI :=
  { symbolStore := ⟨⟨true, ["env", "symbols"]⟩⟩,
    artifactStore := ⟨⟨⟨true, ["env", "artifacts"]⟩⟩⟩ }

/-- A CI project with no jobs and no pipelines. -/
def projEmpty : CIProject := { jobs := [], pipelines := [] }

/-- State for the resolution fast path: the handle's `version.txt` is present
(`7.50.0`) but the symbol store holds no entry for that version. -/
def stFast : St :=
  { cwd := [],
    files := [(["env", "artifacts", "datadog-agent", "42", "version.txt"], .raw "7.50.0")],
    dirs := [], ciCalls := 0 }

/-- A symbol store rooted at the relative path `store`. -/
def ssRel : SymbolStore := ⟨⟨false, ["store"]⟩⟩

/-- State after `ssRel.add "1.0"` of a directory holding `agent.exe.debug`:
the contents land under the doubled prefix `store/store/1.0/symbols`. -/
def stRel1 : St :=
  { cwd := [],
    files := [(["store", "store", "1.0", "symbols", "agent.exe.debug"], .raw "x")],
    dirs := [["store", "store", "1.0", "symbols"], ["store", "store", "1.0", "symbols"]],
    ciCalls := 0 }

/-- An artifact store rooted at `/as`. -/
def astoreA : ArtifactStore := ⟨⟨⟨true, ["as"]⟩⟩⟩

/-- State holding only `datadog-agent/8/version.txt` (a version ref written by
the `version` setter without any raw artifacts). -/
def stVerB : St :=
  { cwd := [],
    files := [(["as", "datadog-agent", "8", "version.txt"], .raw "1.2")],
    dirs := [["as", "datadog-agent", "8"]],
    ciCalls := 0 }

/-- A path store rooted at `/r`. -/
def psR : PathStore := ⟨⟨true, ["r"]⟩⟩

/-- State after `psR.add "a/b"` of blob `x`. -/
def stAB : St :=
  { cwd := [], files := [(["r", "a", "b"], .raw "x")], dirs := [["r", "a"]], ciCalls := 0 }

/-- State after `psR.add_directory "d"` of a directory holding `f.exe.debug`. -/
def stDirD : St :=
  { cwd := [],
    files := [(["r", "d", "f.exe.debug"], .raw "s")],
    dirs := [["r", "d"], ["r", "d"]],
    ciCalls := 0 }

/-- State after setting the `version` property of handle `(p, j)` to `" 1 "`. -/
def stCx : St :=
  { cwd := [],
    files := [(["r", "p", "j", "version.txt"], .raw " 1 ")],
    dirs := [["r", "p", "j"]],
    ciCalls := 0 }

/-- State after setting the `version` property of handle `(p, j)` to `7.50.0`. -/
def stW8 : St :=
  { cwd := [],
    files := [(["r", "p", "j", "version.txt"], .raw "7.50.0")],
    dirs := [["r", "p", "j"]],
    ciCalls := 0 }

/-- A job of pipeline `P` whose listing contains no package job. -/
def jobJ : CIJob := { id := "J", name := "tester", pipelineId := "P", artifactsTree := [] }

/-- The only completed job listed for pipeline `P`; not the package job. -/
def jobK : CIJob := { id := "K", name := "other", pipelineId := "P", artifactsTree := [] }

/-- A CI project whose pipeline `P` lists no job with the package-job name. -/
def projNoMatch : CIProject := { jobs := [jobJ], pipelines := [("P", [jobK])] }

deriving instance DecidableEq for Except

/-! Helper lemmas. -/

/-- Looking up the upserted key returns the new data. -/
theorem findFile_upsert_self (p : List String) (d : FileData)
    (l : List (List String × FileData)) :
    findFile p (upsertFile p d l) = some d := by
  induction l with
  | nil =>
    rw [upsertFile, findFile, if_pos (by exact beq_self_eq_true p)]
  | cons q rest ih =>
    by_cases hq : q.1 == p
    · rw [upsertFile, if_pos hq, findFile, if_pos (by exact beq_self_eq_true p)]
    · rw [upsertFile, if_neg hq, findFile, if_neg hq, ih]

/-- After an upsert at `p`, something exists at `p`. -/
theorem any_isPrefixOf_upsertFile (p : List String) (d : FileData)
    (l : List (List String × FileData)) :
    (upsertFile p d l).any (fun q => p.isPrefixOf q.1) = true := by
  induction l with
  | nil =>
    rw [upsertFile, List.any_cons]
    have hp : p.isPrefixOf p = true := by
      rw [List.isPrefixOf_iff_prefix]
    rw [hp, Bool.true_or]
  | cons q rest ih =>
    by_cases hq : q.1 == p
    · rw [upsertFile, if_pos hq, List.any_cons]
      have hp : p.isPrefixOf p = true := by
        rw [List.isPrefixOf_iff_prefix]
      rw [hp, Bool.true_or]
    · rw [upsertFile, if_neg hq, List.any_cons, ih, Bool.or_true]

/-- A `PathStore.get` of a key at which a file exists returns its contents. -/
theorem pathStoreGetOfFile (ps : PathStore) (k : String) (st : St) (d : FileData)
    (hex : pathExists st (resolvePy st.cwd (ps.path.join (pyPath k))) = true)
    (hfind : lookupFile st (resolvePy st.cwd (ps.path.join (pyPath k))) = some d) :
    ps.get k st = .ok (some d) := by
  simp only [PathStore.get, hex, hfind, if_true]

/-- A successful `PathStore.add` stores the blob retrievably at the key and
leaves the parent directory in place. -/
theorem pathStoreAddGet (ps : PathStore) (k : String) (d : FileData) (st st' : St)
    (h : ps.add k d st = .ok st') :
    ps.get k st' = .ok (some d) ∧
    pathExists st' (parentPath (resolvePy st.cwd (ps.path.join (pyPath k)))) = true := by
  simp only [PathStore.add, mkdirParents] at h
  by_cases hc : fileConflict st (parentPath (resolvePy st.cwd (ps.path.join (pyPath k))))
  · simp [hc] at h
  · rw [if_neg hc] at h
    simp only [writeFileAt, addDir] at h
    by_cases hdir :
        dirAt { st with dirs := parentPath (resolvePy st.cwd (ps.path.join (pyPath k))) :: st.dirs }
          (resolvePy st.cwd (ps.path.join (pyPath k)))
    · simp [hdir] at h
    · rw [if_neg (by simpa using hdir)] at h
      cases h
      constructor
      · refine pathStoreGetOfFile ps k _ d ?_ ?_
        · unfold pathExists
          rw [any_isPrefixOf_upsertFile, Bool.true_or]
        · exact findFile_upsert_self _ _ _
      · unfold pathExists
        have hdirs : (parentPath (resolvePy st.cwd (ps.path.join (pyPath k))) :: st.dirs).any
            (fun dd => (parentPath (resolvePy st.cwd (ps.path.join (pyPath k)))).isPrefixOf dd) =
              true := by
          rw [List.any_cons]
          have hpp : (parentPath (resolvePy st.cwd (ps.path.join (pyPath k)))).isPrefixOf
              (parentPath (resolvePy st.cwd (ps.path.join (pyPath k)))) = true := by
            rw [List.isPrefixOf_iff_prefix]
          rw [hpp, Bool.true_or]
        rw [hdirs, Bool.or_true]

/-- Setting an attribute caches the set value. -/
theorem attrGet_attrSet (a : Artifacts) (attr : TextAttr) (v : String) :
    (a.attrSet attr v).attrGet attr = some v := by
  cases attr <;> rfl

/-- Setting an attribute does not change the backing store reference. -/
theorem attrSet_store (a : Artifacts) (attr : TextAttr) (v : String) :
    (a.attrSet attr v).store = a.store := by
  cases attr <;> rfl

/-! Claim theorems. -/

/-- Claim C6 counterexample: the round trip fails when a directory occupies the
key's path.  With blob `x` stored at key `a/b`, adding blob `y` at key `a`
raises `IsADirectoryError` (nothing is stored) and reading key `a` also raises
instead of returning the added blob. -/
theorem c6_counterexample :
    PathStore.add psR "a/b" (FileData.raw "x") stEmpty = .ok stAB ∧
    PathStore.add psR "a" (FileData.raw "y") stAB = .error .isADirectory ∧
    PathStore.get psR "a" stAB = .error .isADirectory ∧
    ¬ PathStore.get psR "a" stAB = .ok (some (FileData.raw "y")) := by decide

/-- Claim C6 (amended): for every key `k` and blob `b`, whenever `add(k, b)`
succeeds — that is, no directory occupies the key's resolved path and no file
occupies a strict prefix of it — `get(k)` afterwards returns exactly `b`, and
`add` has created the parent directory structure, overwriting any blob that was
at the key; when a directory occupies the key's path, `add` and `get` raise
`IsADirectoryError` instead. -/
theorem c6_path_store_round_trip (ps : PathStore) (k : String) (b : FileData) (st st' : St)
    (h : ps.add k b st = .ok st') :
    ps.get k st' = .ok (some b) ∧
    pathExists st' (parentPath (resolvePy st.cwd (ps.path.join (pyPath k)))) = true :=
  pathStoreAddGet ps k b st st' h

/-- Claim C6 witness: the round trip evaluated at key `a/b`, blob `x`, on the
empty store. -/
theorem c6_round_trip_witness :
    PathStore.get psR "a/b" stAB = .ok (some (FileData.raw "x")) ∧
    pathExists stAB (parentPath (resolvePy stEmpty.cwd (psR.path.join (pyPath "a/b")))) = true :=
  c6_path_store_round_trip psR "a/b" (FileData.raw "x") stEmpty stAB (by decide)

/-- Claim C7 counterexample: reading a key that was never written as a blob can
raise.  After `add_directory` at key `d`, key `d` was never written as a blob,
yet `get d` raises `IsADirectoryError` rather than returning absent. -/
theorem c7_counterexample :
    PathStore.addDirectory psR "d" [(["f.exe.debug"], FileData.raw "s")] stEmpty = .ok stDirD ∧
    PathStore.get psR "d" stDirD = .error .isADirectory := by decide

/-- Claim C7 (amended): reading a key at whose resolved path nothing exists on
disk (no file and no directory) returns an explicit absent result and never
raises; but when a directory occupies the key's path — one created by
`add_directory`, or lying above a blob written at a deeper key — `get` raises
`IsADirectoryError`. -/
theorem c7_get_missing_absent (ps : PathStore) (k : String) (st : St)
    (h : pathExists st (resolvePy st.cwd (ps.path.join (pyPath k))) = false) :
    ps.get k st = .ok none := by
  simp [PathStore.get, h]

/-- Claim C7 witness: a never-written key read from a store that does contain a
directory subtree created by `add_directory`. -/
theorem c7_get_missing_absent_witness :
    PathStore.get psR "nothere" stDirD = .ok none :=
  c7_get_missing_absent psR "nothere" stDirD (by decide)

/-- Claim C2 counterexample: `add` without an artifacts path writes nothing, so
`get` still signals absence afterwards; and after only a `version` write the
pair's key directory exists with no raw-artifact subtree, yet `get` returns a
handle. -/
theorem c2_counterexample :
    ArtifactStore.add astoreA "datadog-agent" "7" none stEmpty =
      .ok (mkArtifacts astoreA.pathStore "datadog-agent" "7", stEmpty) ∧
    ArtifactStore.get astoreA "datadog-agent" "7" stEmpty = none ∧
    (mkArtifacts astoreA.pathStore "datadog-agent" "8").setTextProperty .version "1.2" stEmpty =
      .ok (⟨astoreA.pathStore, "datadog-agent", "8", some "1.2", none⟩, stVerB) ∧
    ArtifactStore.get astoreA "datadog-agent" "8" stVerB =
      some (mkArtifacts astoreA.pathStore "datadog-agent" "8") ∧
    (mkArtifacts astoreA.pathStore "datadog-agent" "8").getDir stVerB = none := by decide

/-- Claim C2 (amended): `ArtifactStore.get(project, job)` returns a handle iff
anything exists at the pair's key directory `<project>/<job>` on disk — which
`add` with an artifacts path or any text-property write creates — not only
when the raw-artifact subtree exists; and `add` without an artifacts path
performs no disk write at all, returning a fresh handle with the state
unchanged. -/
theorem c2_artifact_store_get_iff (astore : ArtifactStore) (project job : String) (st : St) :
    ((astore.get project job st).isSome =
      pathExists st
        (resolvePy st.cwd (astore.pathStore.path.join (pyPath (Artifacts.makekey project job))))) ∧
    astore.add project job none st = .ok (mkArtifacts astore.pathStore project job, st) := by
  constructor
  · unfold ArtifactStore.get PathStore.getDirectory
    by_cases h :
        pathExists st
          (resolvePy st.cwd
            (astore.pathStore.path.join (pyPath (Artifacts.makekey project job)))) <;>
      simp [h]
  · rfl

/-- Claim C8 counterexample: after setting `version` to `" 1 "`, the in-memory
cache holds `" 1 "` while decoding the stored entry yields the stripped `"1"`,
so the cache differs from what a read from backing storage would yield. -/
theorem c8_counterexample :
    Artifacts.setTextProperty (mkArtifacts psR "p" "j") .version " 1 " stEmpty =
      .ok (⟨psR, "p", "j", some " 1 ", none⟩, stCx) ∧
    (⟨psR, "p", "j", some " 1 ", none⟩ : Artifacts).attrGet .version = some " 1 " ∧
    lookupFile stCx ["r", "p", "j", "version.txt"] = some (FileData.raw " 1 ") ∧
    storedTextValue (FileData.raw " 1 ") = some "1" ∧
    ¬ (" 1 " : String) = "1" := by decide

/-- Claim C8 (amended): for every text property and every value `v` that is
nonempty and carries no surrounding whitespace (`v.strip() == v`, `v != ""`),
a successful setter call writes the encoding of `v` through to the backing
entry and sets the in-memory cache to `v`, so the cache equals the value a
storage read would decode; for other values the cache (`v`) differs from the
storage decoding (`v.strip()`, or absent for empty `v`). -/
theorem c8_text_property_write_through (a : Artifacts) (attr : TextAttr) (v : String) (st : St)
    (a' : Artifacts) (st' : St)
    (hset : a.setTextProperty attr v st = .ok (a', st'))
    (htrim : pyStrip v = v) (hne : ¬ v = "") :
    a'.attrGet attr = some v ∧
    a'.store.get (a.key ++ "/" ++ attr.txtName) st' = .ok (some (.raw v)) ∧
    storedTextValue (FileData.raw v) = some v := by
  unfold Artifacts.setTextProperty at hset
  cases hadd : a.store.add (a.key ++ "/" ++ attr.txtName) (.raw v) st with
  | error e => rw [hadd] at hset; cases hset
  | ok st1 =>
    rw [hadd] at hset
    simp only [Except.ok.injEq, Prod.mk.injEq] at hset
    obtain ⟨ha, hs⟩ := hset
    subst ha
    subst hs
    refine ⟨attrGet_attrSet a attr v, ?_, ?_⟩
    · rw [attrSet_store]
      exact (pathStoreAddGet _ _ _ _ _ hadd).1
    · simp [storedTextValue, hne, htrim]

/-- Claim C8 witness: setting `version` to the whitespace-free `7.50.0`. -/
theorem c8_text_property_write_through_witness :
    (⟨psR, "p", "j", some "7.50.0", none⟩ : Artifacts).attrGet .version = some "7.50.0" ∧
    (⟨psR, "p", "j", some "7.50.0", none⟩ : Artifacts).store.get
      ((mkArtifacts psR "p" "j").key ++ "/" ++ TextAttr.version.txtName) stW8 =
      .ok (some (.raw "7.50.0")) ∧
    storedTextValue (FileData.raw "7.50.0") = some "7.50.0" :=
  c8_text_property_write_through (mkArtifacts psR "p" "j") .version "7.50.0" stEmpty
    ⟨psR, "p", "j", some "7.50.0", none⟩ stW8 (by decide) (by decide) (by decide)

/-- Claim C1 (code bug): with the handle's `version.txt` present (`7.50.0`) but
no symbol-store entry for that version, `get_symbols_for_job_id` takes the
fast path and then, instead of extracting the debug archive and adding it to
the symbol store, raises `NameError` — the local `debug_zip` is only assigned
on the slow path, which the fast path skips. -/
theorem c1_fast_path_unbound_debug_zip :
    getSymbolsForJobId projEmpty cliEnv "42" stFast = (.error .nameError, stFast) ∧
    lookupFile stFast ["env", "artifacts", "datadog-agent", "42", "version.txt"] =
      some (FileData.raw "7.50.0") ∧
    cliEnv.symbolStore.get "7.50.0" stFast = none := by decide

/-- Claim C4 (code bug): with a symbol store rooted at the relative path
`store`, `add "1.0"` hands `add_directory` the full destination rendered as a
string, so the contents land under the doubled prefix `store/store/1.0/symbols`
while `add` returns `store/1.0/symbols`; `get "1.0"` then returns the doubled
path, different from the path `add` returned, and nothing is stored at
`<store_root>/1.0/symbols`.  (An absolute root masks the bug, because joining
an absolute path onto the root returns the absolute path unchanged.) -/
theorem c4_relative_root_mislocated :
    SymbolStore.add ssRel "1.0" [(["agent.exe.debug"], FileData.raw "x")] stEmpty =
      .ok (⟨false, ["store", "1.0", "symbols"]⟩, stRel1) ∧
    SymbolStore.get ssRel "1.0" stRel1 = some ⟨false, ["store", "store", "1.0", "symbols"]⟩ ∧
    lookupFile stRel1 ["store", "store", "1.0", "symbols", "agent.exe.debug"] =
      some (FileData.raw "x") ∧
    lookupFile stRel1 ["store", "1.0", "symbols", "agent.exe.debug"] = none ∧
    ¬ (⟨false, ["store", "1.0", "symbols"]⟩ : PyPath) =
        ⟨false, ["store", "store", "1.0", "symbols"]⟩ := by decide

/-- Claim C5: on the resolution fast path — the Artifact Handle exists and its
`version` property is set (non-empty) — `get_symbols_for_job_id` performs zero
CI-provider calls: no job metadata lookup, no pipeline listing, no artifact
download. -/
theorem c5_fast_path_no_ci_calls (proj : CIProject) (cli : CLI) (jobId : String) (st : St)
    (a a1 : Artifacts) (v : String)
    (hGet : cli.artifactStore.get "datadog-agent" jobId st = some a)
    (hVer : a.getTextProperty .version st = .ok (some v, a1))
    (hv : ¬ v = "") :
    ((getSymbolsForJobId proj cli jobId st).2).ciCalls = st.ciCalls := by
  have hvb : (v != "") = true := by simpa using hv
  simp only [getSymbolsForJobId, hGet, hVer, Option.getD_some, hvb, if_true]
  unfold resolveVersionTail
  cases h : cli.symbolStore.get v st <;> simp [h]

/-- Claim C5 witness: the fast-path state with `version.txt` set to `7.50.0`. -/
theorem c5_fast_path_no_ci_calls_witness :
    ((getSymbolsForJobId projEmpty cliEnv "42" stFast).2).ciCalls = stFast.ciCalls :=
  c5_fast_path_no_ci_calls projEmpty cliEnv "42" stFast
    (mkArtifacts cliEnv.artifactStore.pathStore "datadog-agent" "42")
    ⟨cliEnv.artifactStore.pathStore, "datadog-agent", "42", some "7.50.0", none⟩
    "7.50.0" (by decide) (by decide) (by decide)

/-- Claim C3: with a fixed pipeline job listing, the package-job match is the
first listed completed job whose name equals the configured package-job name
(default `windows_msi_and_bosh_zip_x64-a7`); when no listed job matches, the
lookup returns the explicit absent result `None` and symbol resolution then
fails with an error rather than silently falling back. -/
theorem c3_package_job_match (proj : CIProject) (cli : CLI) (jobId : String) (st : St)
    (job : CIJob) (pl : String × List CIJob)
    (hJob : proj.jobs.find? (fun j => j.id == jobId) = some job)
    (hPipe : proj.pipelines.find? (fun pr => pr.1 == job.pipelineId) = some pl) :
    (getPackageJobId proj jobId none st).1 =
      .ok ((pl.2.find? (fun j => j.name == defaultPackageJobName)).map (fun j => j.id)) ∧
    ((∀ j ∈ pl.2, ¬ j.name = defaultPackageJobName) →
      cli.artifactStore.get "datadog-agent" jobId st = none →
      pathExists st
        (resolvePy st.cwd
          (cli.artifactStore.pathStore.path.join
            (pyPath (Artifacts.makekey "datadog-agent" "None")))) = false →
      (getSymbolsForJobId proj cli jobId st).1 = .error .notFound) := by
  have hPkg : getPackageJobId proj jobId none st =
      (.ok ((pl.2.find? (fun j => j.name == defaultPackageJobName)).map (fun j => j.id)),
        { st with ciCalls := st.ciCalls + 1 + 1 }) := by
    simp only [getPackageJobId, CIProject.jobsGet, CIProject.pipelinesGet, hJob, hPipe,
      Option.getD]
  refine ⟨by rw [hPkg], ?_⟩
  intro hno hget hnone
  have hfind : pl.2.find? (fun j => j.name == defaultPackageJobName) = none := by
    rw [List.find?_eq_none]
    intro x hx
    simpa using hno x hx
  rw [hfind] at hPkg
  simp only [Option.map_none'] at hPkg
  simp only [getSymbolsForJobId, hget]
  simp only [slowPathStep, hPkg]
  simp only [getOrFetchArtifacts, pyShow, ArtifactStore.get, PathStore.getDirectory]
  simp only [pathExists] at hnone ⊢
  simp only [hnone, Bool.false_eq_true, if_false]
  simp only [addGitlabJobArtifacts, downloadJobArtifacts, CIProject.jobsGet]

/-- Claim C3 witness: job `J` whose pipeline `P` lists only a job named
`other`: the package-job lookup returns `None` and resolution errors. -/
theorem c3_package_job_match_witness :
    (getPackageJobId projNoMatch "J" none stEmpty).1 = .ok none ∧
    (getSymbolsForJobId projNoMatch cliEnv "J" stEmpty).1 = .error .notFound := by
  have h := c3_package_job_match projNoMatch cliEnv "J" stEmpty jobJ ("P", [jobK])
    (by decide) (by decide)
  refine ⟨?_, h.2 (by decide) (by decide) (by decide)⟩
  have h1 := h.1
  have hev : (([jobK].find? (fun j => j.name == defaultPackageJobName)).map (fun j => j.id) :
      Option String) = none := by decide
  rw [hev] at h1
  exact h1

/-- Looking up the upserted output name returns the new data. -/
theorem lookupEntry_upsert_self (k v : String) (l : List (String × String)) :
    lookupEntry k (upsertEntry k v l) = some v := by
  induction l with
  | nil =>
    rw [upsertEntry, lookupEntry, if_pos (by exact beq_self_eq_true k)]
  | cons q rest ih =>
    by_cases hq : q.1 == k
    · rw [upsertEntry, if_pos hq, lookupEntry, if_pos (by exact beq_self_eq_true k)]
    · rw [upsertEntry, if_neg hq, lookupEntry, if_neg hq, ih]

/-- Upserting one output name leaves the others unchanged. -/
theorem lookupEntry_upsert_ne (k x v : String) (l : List (String × String)) (h : ¬ k = x) :
    lookupEntry x (upsertEntry k v l) = lookupEntry x l := by
  induction l with
  | nil =>
    simp only [upsertEntry, lookupEntry]
    rw [if_neg (by simpa using h)]
  | cons q rest ih =>
    by_cases hq : q.1 == k
    · have hq' : q.1 = k := by simpa using hq
      rw [upsertEntry, if_pos hq]
      simp only [lookupEntry]
      rw [if_neg (by simpa using h), if_neg (by simp [hq', h])]
    · rw [upsertEntry, if_neg hq]
      simp only [lookupEntry]
      by_cases hx : q.1 == x
      · rw [if_pos hx, if_pos hx]
      · rw [if_neg hx, if_neg hx, ih]

/-- The last element of a list with one more element at the front. -/
theorem getLast_cons_or {α : Type} (a : α) (l : List α) :
    (a :: l).getLast? = l.getLast?.or (some a) := by
  induction l generalizing a with
  | nil => rfl
  | cons b tl ih =>
    rw [List.getLast?_cons_cons, ih b]
    cases h : tl.getLast? <;> simp [h]

/-- The extraction fold resolves an output name to the data of the last
matching archive entry, falling back to the accumulator. -/
theorem extract_foldl_lookup (n : String) (es : List ZipEntry) (acc : List (String × String)) :
    lookupEntry n
      (es.foldl
        (fun out e =>
          if pyEndsWith e.filename ".exe.debug" then upsertEntry (zipBasename e.filename) e.data out
          else out)
        acc) =
      match (es.filter
          (fun e => pyEndsWith e.filename ".exe.debug" && zipBasename e.filename == n)).getLast? with
      | some e => some e.data
      | none => lookupEntry n acc := by
  induction es generalizing acc with
  | nil => simp
  | cons e tl ih =>
    rw [List.foldl_cons, List.filter_cons]
    by_cases hsuf : pyEndsWith e.filename ".exe.debug"
    · by_cases hbn : zipBasename e.filename = n
      · subst hbn
        rw [if_pos hsuf, ih]
        have hq : (pyEndsWith e.filename ".exe.debug" &&
            zipBasename e.filename == zipBasename e.filename) = true := by
          rw [hsuf]
          simp
        rw [if_pos hq, getLast_cons_or]
        cases h : (tl.filter
            (fun x => pyEndsWith x.filename ".exe.debug" &&
              zipBasename x.filename == zipBasename e.filename)).getLast? with
        | none => simp [lookupEntry_upsert_self]
        | some x => simp
      · rw [if_pos hsuf, ih]
        have hq : (pyEndsWith e.filename ".exe.debug" && zipBasename e.filename == n) = false := by
          simp [hbn]
        rw [if_neg (by simp [hq])]
        cases h : (tl.filter
            (fun e => pyEndsWith e.filename ".exe.debug" && zipBasename e.filename == n)).getLast? with
        | none => simp [lookupEntry_upsert_ne _ _ _ _ hbn]
        | some x => simp
    · rw [if_neg hsuf, ih]
      have hq : (pyEndsWith e.filename ".exe.debug" && zipBasename e.filename == n) = false := by
        simp [hsuf]
      rw [if_neg (by simp [hq])]

/-- Any name in the upserted output either is the upserted name or was there. -/
theorem mem_keys_upsertEntry (k v x : String) (l : List (String × String))
    (h : x ∈ (upsertEntry k v l).map (fun q => q.1)) :
    x = k ∨ x ∈ l.map (fun q => q.1) := by
  induction l with
  | nil => simpa [upsertEntry] using h
  | cons q rest ih =>
    by_cases hq : q.1 == k
    · rw [upsertEntry, if_pos hq] at h
      simp only [List.map_cons, List.mem_cons] at h
      rcases h with h | h
      · exact .inl h
      · exact .inr (by simp [h])
    · rw [upsertEntry, if_neg hq] at h
      simp only [List.map_cons, List.mem_cons] at h
      rcases h with h | h
      · exact .inr (by simp [h])
      · rcases ih h with h' | h'
        · exact .inl h'
        · exact .inr (by simp [h'])

/-- Upserting preserves distinctness of output names. -/
theorem keys_nodup_upsertEntry (k v : String) (l : List (String × String))
    (h : (l.map (fun q => q.1)).Nodup) :
    ((upsertEntry k v l).map (fun q => q.1)).Nodup := by
  induction l with
  | nil => simp [upsertEntry]
  | cons q rest ih =>
    rw [List.map_cons, List.nodup_cons] at h
    obtain ⟨h1, h2⟩ := h
    by_cases hq : q.1 == k
    · have hq' : q.1 = k := by simpa using hq
      rw [upsertEntry, if_pos hq, List.map_cons, List.nodup_cons]
      exact ⟨by rw [← hq']; exact h1, h2⟩
    · rw [upsertEntry, if_neg hq, List.map_cons, List.nodup_cons]
      refine ⟨?_, ih h2⟩
      intro hmem
      rcases mem_keys_upsertEntry k v q.1 rest hmem with h' | h'
      · exact absurd h' (by simpa using hq)
      · exact h1 h'

/-- The extraction fold preserves distinctness of output names. -/
theorem extract_foldl_nodup (es : List ZipEntry) (acc : List (String × String))
    (h : (acc.map (fun q => q.1)).Nodup) :
    ((es.foldl
        (fun out e =>
          if pyEndsWith e.filename ".exe.debug" then upsertEntry (zipBasename e.filename) e.data out
          else out)
        acc).map (fun q => q.1)).Nodup := by
  induction es generalizing acc with
  | nil => simpa using h
  | cons e tl ih =>
    rw [List.foldl_cons]
    by_cases hsuf : pyEndsWith e.filename ".exe.debug"
    · rw [if_pos hsuf]
      exact ih _ (keys_nodup_upsertEntry _ _ _ h)
    · rw [if_neg hsuf]
      exact ih _ h

/-- Claim C9: `extract_agent_symbols` extracts exactly the entries whose names
end in `.exe.debug`: an output file named `n` exists iff some archive entry
has that suffix and basename `n` — each kept entry is written at
`<output_dir>/<basename>` with directory components discarded, and entries
without the suffix produce no output. -/
theorem c9_extract_exactly_debug_entries (es : List ZipEntry) (n : String) :
    (¬ lookupEntry n (extractAgentSymbols es) = none) ↔
      ∃ e ∈ es, pyEndsWith e.filename ".exe.debug" = true ∧ zipBasename e.filename = n := by
  unfold extractAgentSymbols
  rw [extract_foldl_lookup]
  cases h : (es.filter
      (fun e => pyEndsWith e.filename ".exe.debug" && zipBasename e.filename == n)).getLast? with
  | none =>
    have hnil := List.getLast?_eq_none_iff.mp h
    rw [List.filter_eq_nil_iff] at hnil
    constructor
    · intro hc
      exact absurd rfl hc
    · rintro ⟨e, he, hsuf, hbn⟩
      exact absurd (by simp [hsuf, hbn]) (hnil e he)
  | some x =>
    constructor
    · intro _
      have hx := List.mem_of_getLast?_eq_some h
      rw [List.mem_filter] at hx
      refine ⟨x, hx.1, ?_, ?_⟩
      · have hb := hx.2
        simp only [Bool.and_eq_true] at hb
        exact hb.1
      · have hb := hx.2
        simp only [Bool.and_eq_true, beq_iff_eq] at hb
        exact hb.2
    · intro _
      simp

/-- Claim C10: when several archive entries share a basename ending in
`.exe.debug`, they are all written to the same flattened output path, so the
output holds exactly one file per distinct basename and its contents are those
of the last such entry in archive order. -/
theorem c10_extract_last_wins (es : List ZipEntry) (n : String) :
    lookupEntry n (extractAgentSymbols es) =
      ((es.filter
          (fun e => pyEndsWith e.filename ".exe.debug" && zipBasename e.filename == n)).getLast?).map
        (fun e => e.data) ∧
    ((extractAgentSymbols es).map (fun q => q.1)).Nodup := by
  constructor
  · unfold extractAgentSymbols
    rw [extract_foldl_lookup]
    cases h : (es.filter
        (fun e => pyEndsWith e.filename ".exe.debug" && zipBasename e.filename == n)).getLast? with
    | none => simp [lookupEntry]
    | some x => simp
  · exact extract_foldl_nodup es [] (by simp)
